import Mathlib

set_option maxRecDepth 100000

/-!
Verification development for the "Lighting Architect Pro" application
(src/app.py).  The core under study is the plan-acquisition pipeline:
`get_lighting_plan` builds a prompt, calls a generation service, extracts a
JSON candidate from the reply text with `re.search(r"\x7b.*\x7d", text,
re.DOTALL)`, and returns `json.loads` of the match.  The rendering and
cheatsheet code (`draw_2d`, `draw_3d`, the button handler loop) consumes the
returned dictionary with ad-hoc `l.get(...)` defaults and `l[...]` accesses.

Strings from the Python side are modelled as `List Char`.  Python exceptions
that can arise on the modelled paths are the constructors of `PyExn`; the
top-level `except Exception` handler of the button callback is modelled by
`handleGenerate`, which maps any raised exception to an error outcome.
-/

namespace AppModel

/-- Opening brace character (ASCII 123), kept abstract as a named constant. -/
def lbrace : Char := Char.ofNat 123

/-- Closing brace character (ASCII 125). -/
def rbrace : Char := Char.ofNat 125

/-- Convert a Lean string literal to the `List Char` representation used
throughout this development. -/
def chars (s : String) : List Char := s.toList

/-- JSON values as produced by `json.loads`.  Python dicts are modelled as
association lists in insertion order; numbers are modelled as rationals (the
int/float distinction of Python is not load-bearing for any property proved
here). -/
inductive Json where
  | null : Json
  | bool (b : Bool) : Json
  | num (q : ℚ) : Json
  | str (s : List Char) : Json
  | arr (xs : List Json) : Json
  | obj (fields : List (List Char × Json)) : Json

/-- JSON whitespace accepted between tokens (space, tab, LF, CR). -/
def isWsChar (c : Char) : Bool :=
  c = ' ' || c = '\t' || c = '\n' || c = '\x0d'

/-- Drop leading JSON whitespace. -/
def skipWs (s : List Char) : List Char := s.dropWhile isWsChar

/-- Translate a JSON string escape character (the char after a backslash). -/
def escChar (c : Char) : Option Char :=
  if c = '"' then some '"'
  else if c = '\\' then some '\\'
  else if c = '/' then some '/'
  else if c = 'b' then some '\x08'
  else if c = 'f' then some '\x0c'
  else if c = 'n' then some '\n'
  else if c = 'r' then some '\x0d'
  else if c = 't' then some '\t'
  else none

/-- Value of a hexadecimal digit. -/
def hexVal (c : Char) : Option Nat :=
  if '0' ≤ c ∧ c ≤ '9' then some (c.toNat - 48)
  else if 'a' ≤ c ∧ c ≤ 'f' then some (c.toNat - 87)
  else if 'A' ≤ c ∧ c ≤ 'F' then some (c.toNat - 55)
  else none

/-- Parse the body of a JSON string after the opening quote, returning the
decoded characters and the remaining input after the closing quote.  Raw
control characters are rejected, as in Python's strict default mode.
Surrogate-pair recombination for `\uXXXX` escapes is not modelled (no
property here depends on it).  Runs on fuel; callers supply `length + 1`,
which is always sufficient since every step consumes at least one char. -/
def parseStrBody : Nat → List Char → Option (List Char × List Char)
  | 0, _ => none
  | _ + 1, [] => none
  | f + 1, c :: t =>
    if c = '"' then some ([], t)
    else if c = '\\' then
      match t with
      | [] => none
      | e :: u =>
        match escChar e with
        | some ec => (parseStrBody f u).map (fun r => (ec :: r.1, r.2))
        | none =>
          if e = 'u' then
            match u with
            | h1 :: h2 :: h3 :: h4 :: u2 =>
              match hexVal h1, hexVal h2, hexVal h3, hexVal h4 with
              | some a, some b, some c2, some d =>
                (parseStrBody f u2).map
                  (fun r => (Char.ofNat (((a * 16 + b) * 16 + c2) * 16 + d) :: r.1, r.2))
              | _, _, _, _ => none
            | _ => none
          else none
    else if c.toNat < 32 then none
    else (parseStrBody f t).map (fun r => (c :: r.1, r.2))

/-- Numeric value of a digit run. -/
def digitsToNat (ds : List Char) : Nat :=
  ds.foldl (fun n c => n * 10 + (c.toNat - 48)) 0

/-- Parse the optional fractional part of a JSON number. -/
def fracPart (r : List Char) : Option (ℚ × List Char) :=
  match r with
  | [] => some (0, r)
  | c :: t =>
    if c = '.' then
      match t.span (·.isDigit) with
      | ([], _) => none
      | (ds, r2) => some ((digitsToNat ds : ℚ) / ((10 : ℚ) ^ ds.length), r2)
    else some (0, r)

/-- Parse the optional exponent part of a JSON number, returning the factor
`10 ^ e`. -/
def expPart (r : List Char) : Option (ℚ × List Char) :=
  match r with
  | [] => some (1, r)
  | c :: t =>
    if c = 'e' ∨ c = 'E' then
      match t with
      | [] => none
      | d :: u =>
        let (neg, body) :=
          if d = '-' then (true, u) else if d = '+' then (false, u) else (false, d :: u)
        match body.span (·.isDigit) with
        | ([], _) => none
        | (ds, r2) =>
          let e : ℤ := if neg then -(digitsToNat ds : ℤ) else (digitsToNat ds : ℤ)
          some ((10 : ℚ) ^ e, r2)
    else some (1, r)

/-- Parse a JSON number following the grammar of Python's `json` module:
an optional minus sign, an integer part with no leading zeros, an optional
fraction, and an optional exponent. -/
def parseNum (s : List Char) : Option (ℚ × List Char) :=
  let (neg, s1) :=
    match s with
    | c :: t => if c = '-' then (true, t) else (false, s)
    | [] => (false, s)
  match s1 with
  | [] => none
  | c :: t =>
    if c.isDigit then
      let (ip, r1) := if c = '0' then ([c], t) else s1.span (·.isDigit)
      match fracPart r1 with
      | none => none
      | some (fq, r2) =>
        match expPart r2 with
        | none => none
        | some (eq, r3) =>
          let base : ℚ := (digitsToNat ip : ℚ) + fq
          some ((if neg then -base else base) * eq, r3)
    else none

/-- Check that `lit` is a leading run of `s`. -/
def frontMatches : List Char → List Char → Bool
  | [], _ => true
  | _ :: _, [] => false
  | c :: p, d :: s => c = d && frontMatches p s

/-- Strip a literal token from the front of the input, if present. -/
def stripLit (lit s : List Char) : Option (List Char) :=
  if frontMatches lit s then some (s.drop lit.length) else none

/-- Parser mode: one JSON value, the members of a non-empty object, or the
items of a non-empty array.  A single mode-tagged function keeps the
recursion structural on the fuel so that concrete runs reduce by `rfl`. -/
inductive PMode where
  | val : PMode
  | members : PMode
  | items : PMode

/-- Fuel-indexed JSON parser.  In `val` mode it parses one JSON value (after
arbitrary leading whitespace); in `members` mode the members of an object
after the opening brace (first member not yet consumed, object known
non-empty); in `items` mode the items of an array after the opening bracket.
Fuel `length + 1` from the entry point is always sufficient because every
fuel-decrementing call happens after at least one character of input was
consumed. -/
def parseF : Nat → PMode → List Char → Option (Json × List Char)
  | 0, _, _ => none
  | f + 1, PMode.val, s0 =>
    match skipWs s0 with
    | [] => none
    | c :: t =>
      if c = lbrace then
        match skipWs t with
        | [] => none
        | d :: u => if d = rbrace then some (.obj [], u) else parseF f PMode.members (d :: u)
      else if c = '[' then
        match skipWs t with
        | [] => none
        | d :: u => if d = ']' then some (.arr [], u) else parseF f PMode.items (d :: u)
      else if c = '"' then
        match parseStrBody (t.length + 1) t with
        | some (body, rest) => some (.str body, rest)
        | none => none
      else if c = 't' then
        match stripLit (chars ("true")) (c :: t) with
        | some r => some (.bool true, r)
        | none => none
      else if c = 'f' then
        match stripLit (chars ("false")) (c :: t) with
        | some r => some (.bool false, r)
        | none => none
      else if c = 'n' then
        match stripLit (chars ("null")) (c :: t) with
        | some r => some (.null, r)
        | none => none
      else
        match parseNum (c :: t) with
        | some (q, r) => some (.num q, r)
        | none => none
  | f + 1, PMode.members, s0 =>
    match skipWs s0 with
    | [] => none
    | c :: t =>
      if c = '"' then
        match parseStrBody (t.length + 1) t with
        | none => none
        | some (key, r1) =>
          match skipWs r1 with
          | [] => none
          | d :: r2 =>
            if d = ':' then
              match parseF f PMode.val r2 with
              | none => none
              | some (v, r3) =>
                match skipWs r3 with
                | [] => none
                | e :: r4 =>
                  if e = ',' then
                    match parseF f PMode.members r4 with
                    | some (.obj fs, r5) => some (.obj ((key, v) :: fs), r5)
                    | _ => none
                  else if e = rbrace then some (.obj [(key, v)], r4)
                  else none
            else none
      else none
  | f + 1, PMode.items, s0 =>
    match parseF f PMode.val s0 with
    | none => none
    | some (v, r1) =>
      match skipWs r1 with
      | [] => none
      | e :: r2 =>
        if e = ',' then
          match parseF f PMode.items r2 with
          | some (.arr xs, r3) => some (.arr (v :: xs), r3)
          | _ => none
        else if e = ']' then some (.arr [v], r2)
        else none

/-- Model of Python's `json.loads`: parse one JSON document and require that
only whitespace remains ("Extra data" otherwise). -/
def Json.parse (s : List Char) : Option Json :=
  match parseF (s.length + 1) PMode.val s with
  | some (v, rest) => if (skipWs rest).isEmpty then some v else none
  | none => none

/-- True for characters other than the opening brace. -/
def notOpen (c : Char) : Bool := if c = lbrace then false else true

/-- True for characters other than the closing brace. -/
def notClose (c : Char) : Bool := if c = rbrace then false else true

/-- Split the input at its last closing brace: for `t = m ++ rbrace :: b`
with no closing brace in `b`, returns `some (m, b)`; `none` when `t` has no
closing brace. -/
def splitAtLast (t : List Char) : Option (List Char × List Char) :=
  match t.reverse.drop ((t.reverse.takeWhile notClose).length) with
  | [] => none
  | _ :: coreRev => some (coreRev.reverse, (t.reverse.takeWhile notClose).reverse)

/-- Model of `re.search(r"\x7b.*\x7d", text, re.DOTALL)` returning the matched
substring.  The leftmost possible start of a match is the first opening brace
of the text (a match starting at any later opening brace would need a closing
brace after it, which would also complete a match at the first one), and the
greedy `.*` extends the match to the last closing brace of the text.  When
the first opening brace has no closing brace after it, no later start can
succeed either, so there is no match at all. -/
def reSearch (s : List Char) : Option (List Char) :=
  match s.dropWhile notOpen with
  | [] => none
  | c :: t =>
    match splitAtLast t with
    | none => none
    | some (m, _) => some (c :: (m ++ [rbrace]))

/-- Python exceptions arising on the modelled paths: `attributeError` is the
`AttributeError` raised by `.group()` on a failed (`None`) regex match,
`jsonDecodeError` the `json.JSONDecodeError` of `json.loads`, `keyError k`
the `KeyError` of a missing dict key `k`, and `typeError` the `TypeError` of
subscripting or arithmetic on a value of the wrong type. -/
inductive PyExn where
  | attributeError : PyExn
  | jsonDecodeError : PyExn
  | keyError (k : List Char) : PyExn
  | typeError : PyExn
deriving DecidableEq

/-- Model of `json.loads(candidate)` on the already-extracted candidate:
either the parsed value or a `JSONDecodeError`. -/
def jsonLoadsE (c : List Char) : Except PyExn Json :=
  match Json.parse c with
  | some v => Except.ok v
  | none => Except.error PyExn.jsonDecodeError

/-- Model of `get_lighting_plan` (src/app.py lines 103-121) after the network
reply text is given: `json_match = re.search(r"\x7b.*\x7d", res.text,
re.DOTALL); return json.loads(json_match.group())`.  A failed search makes
`json_match` `None`, so `.group()` raises `AttributeError`.  The function
performs no validation or normalization of the parsed value. -/
def get_lighting_plan (reply : List Char) : Except PyExn Json :=
  match reSearch reply with
  | none => Except.error PyExn.attributeError
  | some c => jsonLoadsE c

/-- Lookup in an association-list object, last binding winning as in a Python
dict built by `json.loads`. -/
def lookupField (fs : List (List Char × Json)) (k : List Char) : Option Json :=
  ((fs.reverse).find? (fun p => decide (p.1 = k))).map (fun p => p.2)

/-- Field lookup on a JSON value: `none` on non-objects and missing keys. -/
def Json.lookup : Json → List Char → Option Json
  | .obj fs, k => lookupField fs k
  | _, _ => none

/-- Model of Python `d.get(k, default)`: `AttributeError` when the value is
not a dict. -/
def pyGet (j : Json) (k : List Char) (d : Json) : Except PyExn Json :=
  match j with
  | .obj fs => Except.ok ((lookupField fs k).getD d)
  | _ => Except.error PyExn.attributeError

/-- Model of Python `d[k]` with a string key: `KeyError` when the key is
missing from a dict, `TypeError` when the value is not a dict. -/
def pyItem (j : Json) (k : List Char) : Except PyExn Json :=
  match j with
  | .obj fs =>
    match lookupField fs k with
    | some v => Except.ok v
    | none => Except.error (PyExn.keyError k)
  | _ => Except.error PyExn.typeError

/-- Numeric coercion as performed by Python arithmetic on a JSON value:
numbers are themselves, bools are 1/0, everything else raises `TypeError`. -/
def asNum (j : Json) : Except PyExn ℚ :=
  match j with
  | .num q => Except.ok q
  | .bool b => Except.ok (if b then 1 else 0)
  | _ => Except.error PyExn.typeError

/-- Model of Python `for x in v`: lists iterate items, strings iterate
one-char strings, dicts iterate keys, and other values raise `TypeError`. -/
def asIterable (j : Json) : Except PyExn (List Json) :=
  match j with
  | .arr xs => Except.ok xs
  | .str s => Except.ok (s.map (fun c => Json.str [c]))
  | .obj fs => Except.ok (fs.map (fun p => Json.str p.1))
  | _ => Except.error PyExn.typeError

/-- Model of Python `str(...)` on a JSON value.  The exact rendering of
floats and containers is not modelled (no property proved here depends on
it); strings, integers, bools and None are rendered faithfully. -/
def pyStr (j : Json) : List Char :=
  match j with
  | .str s => s
  | .num q =>
    if q.den = 1 then (toString q.num).toList
    else (toString q.num).toList ++ chars ("/") ++ (toString q.den).toList
  | .bool b => if b then chars ("True") else chars ("False")
  | .null => chars ("None")
  | .arr _ => chars ("<list>")
  | .obj _ => chars ("<dict>")

/-- Map a character to lower case (model of Python `str.lower`). -/
def lowerChars (s : List Char) : List Char := s.map Char.toLower

/-- Strip leading and trailing whitespace (model of Python `str.strip`). -/
def trimChars (s : List Char) : List Char :=
  (((s.dropWhile Char.isWhitespace).reverse).dropWhile Char.isWhitespace).reverse

/-- The color alias table of `get_safe_color` (src/app.py line 30). -/
def colorAliases : List (List Char × List Char) :=
  [(chars ("amber"), chars ("orange")),
   (chars ("tungsten"), chars ("darkorange")),
   (chars ("warm"), chars ("orange")),
   (chars ("cool"), chars ("cyan")),
   (chars ("daylight"), chars ("azure"))]

/-- Lookup in the alias table (Python `m.get(c, c)` without the default). -/
def aliasLookup (c : List Char) : Option (List Char) :=
  (colorAliases.find? (fun p => decide (p.1 = c))).map (fun p => p.2)

/-- Model of `get_safe_color` (src/app.py lines 28-32).  The predicate
`isCL` models `matplotlib.colors.is_color_like`, an external library
function kept abstract. -/
def get_safe_color (isCL : List Char → Bool) (v : Json) : List Char :=
  let c := trimChars (lowerChars (pyStr v))
  let res := (aliasLookup c).getD c
  if isCL res then res else chars ("gold")

/-- Per-light data computed by `draw_2d` (src/app.py lines 57-73): the safe
color, the coordinates used for plotting and the distance label, and the
rendered id text.  The sqrt/figure calls themselves are effect-free for this
model; the access and defaulting structure is preserved, in source order:
`l.get('color', 'gold')` (line 58), `l['x']`, `l['y']` (line 59), arithmetic
on them (line 62), `l['id']` (line 69). -/
structure Light2D where
  col : List Char
  x : ℚ
  y : ℚ
  idS : List Char
deriving DecidableEq

/-- The body of the `draw_2d` loop for one light entry. -/
def draw2dLight (isCL : List Char → Bool) (l : Json) : Except PyExn Light2D := do
  let colJ ← pyGet l (chars ("color")) (Json.str (chars ("gold")))
  let xJ ← pyItem l (chars ("x"))
  let yJ ← pyItem l (chars ("y"))
  let qx ← asNum xJ
  let qy ← asNum yJ
  let idJ ← pyItem l (chars ("id"))
  Except.ok ⟨get_safe_color isCL colJ, qx, qy, pyStr idJ⟩

/-- Effect-free model of `mapping each light through the loop body`, failing
at the first raised exception like the Python `for` loop. -/
def mapE {β : Type} (f : Json → Except PyExn β) : List Json → Except PyExn (List β)
  | [] => Except.ok []
  | x :: t => do
    let y ← f x
    let ys ← mapE f t
    Except.ok (y :: ys)

/-- Model of `draw_2d` (src/app.py lines 42-75) restricted to its data
accesses: `data.get('lights', [])` then the per-light loop. -/
def draw_2d (isCL : List Char → Bool) (plan : Json) : Except PyExn (List Light2D) := do
  let lj ← pyGet plan (chars ("lights")) (Json.arr [])
  let ls ← asIterable lj
  mapE (draw2dLight isCL) ls

/-- Per-light data computed by `draw_3d` (src/app.py lines 86-97). -/
structure Light3D where
  x : ℚ
  y : ℚ
  z : ℚ
  col : List Char
  idS : List Char
deriving DecidableEq

/-- The body of the `draw_3d` loop for one light entry, in source order:
`l['x']`, `l['y']`, `l['z']` (line 87), `l.get('color', 'gold')` (line 88),
arithmetic (lines 91-93), `l['id']` (line 97). -/
def draw3dLight (isCL : List Char → Bool) (l : Json) : Except PyExn Light3D := do
  let xJ ← pyItem l (chars ("x"))
  let yJ ← pyItem l (chars ("y"))
  let zJ ← pyItem l (chars ("z"))
  let colJ ← pyGet l (chars ("color")) (Json.str (chars ("gold")))
  let qx ← asNum xJ
  let qy ← asNum yJ
  let qz ← asNum zJ
  let idJ ← pyItem l (chars ("id"))
  Except.ok ⟨qx, qy, qz, get_safe_color isCL colJ, pyStr idJ⟩

/-- Model of `draw_3d` (src/app.py lines 77-100) restricted to its data
accesses. -/
def draw_3d (isCL : List Char → Bool) (plan : Json) : Except PyExn (List Light3D) := do
  let lj ← pyGet plan (chars ("lights")) (Json.arr [])
  let ls ← asIterable lj
  mapE (draw3dLight isCL) ls

/-- Data shown by one cheatsheet expander (src/app.py lines 138-148): id and
strength texts, the height `z`, and the aiming/logic texts with their inline
`l.get` defaults. -/
structure CheatLine where
  idS : List Char
  strengthS : List Char
  z : ℚ
  aimS : List Char
  logicS : List Char
deriving DecidableEq

/-- The body of the cheatsheet loop for one light entry, in source order:
`l['x']`, `l['y']`, `l['z']` (line 139), distance arithmetic (line 140),
`l['id']` and `l.get('strength', 50)` (line 143), `l.get('aiming', ...)` (line
147), `l.get('logic', ...)` (line 148).  The `get_clock_pos` call (line 141)
is total real-valued arithmetic and cannot raise; its value feeds only a text
label and is modelled separately by `get_clock_pos` below. -/
def cheatLight (l : Json) : Except PyExn CheatLine := do
  let xJ ← pyItem l (chars ("x"))
  let yJ ← pyItem l (chars ("y"))
  let zJ ← pyItem l (chars ("z"))
  let _qx ← asNum xJ
  let _qy ← asNum yJ
  let qz ← asNum zJ
  let idJ ← pyItem l (chars ("id"))
  let stJ ← pyGet l (chars ("strength")) (Json.num 50)
  let aimJ ← pyGet l (chars ("aiming")) (Json.str (chars ("Aim at subject.")))
  let logJ ← pyGet l (chars ("logic")) (Json.str (chars ("Separates subject from background.")))
  Except.ok ⟨pyStr idJ, pyStr stJ, qz, pyStr aimJ, pyStr logJ⟩

/-- Model of the cheatsheet loop over `plan.get('lights', [])` (src/app.py
lines 138-148). -/
def cheatsheet (plan : Json) : Except PyExn (List CheatLine) := do
  let lj ← pyGet plan (chars ("lights")) (Json.arr [])
  let ls ← asIterable lj
  mapE cheatLight ls

/-- Everything the button handler produces on success. -/
structure Rendered where
  plan : Json
  map2d : List Light2D
  map3d : List Light3D
  sheet : List CheatLine

/-- Outcome of one button press as seen by the user: either rendered output
or the `st.error` message of the `except` handler. -/
inductive UIOutcome where
  | rendered (r : Rendered) : UIOutcome
  | errorShown (e : PyExn) : UIOutcome

/-- Model of the `try` body of the button handler (src/app.py lines 128-148)
given the reply text: resolve the plan, draw both views, build the
cheatsheet; the first raised exception aborts the rest. -/
def runRequest (isCL : List Char → Bool) (reply : List Char) : Except PyExn Rendered := do
  let plan ← get_lighting_plan reply
  let m2 ← draw_2d isCL plan
  let m3 ← draw_3d isCL plan
  let cs ← cheatsheet plan
  Except.ok ⟨plan, m2, m3, cs⟩

/-- Model of the button handler with its `except Exception` boundary
(src/app.py lines 128-150): every exception is caught and surfaced as an
error message; the function is total, so the process always stays usable. -/
def handleGenerate (isCL : List Char → Bool) (reply : List Char) : UIOutcome :=
  match runRequest isCL reply with
  | Except.ok r => UIOutcome.rendered r
  | Except.error e => UIOutcome.errorShown e

/-- First literal chunk of the prompt f-string (src/app.py line 108). -/
def promptChunk1 : List Char := chars ("\n    Return ONLY a JSON for a ")

/-- Literal chunk between the height and the subject position. -/
def promptChunk2 : List Char := chars ("m room. Subject at ")

/-- Literal chunk between the subject position and the gear text. -/
def promptChunk3 : List Char := chars (", 1.2. \n    Gear: ")

/-- Literal chunk between the gear text and the style text. -/
def promptChunk4 : List Char := chars (". Style: ")

/-- Final literal chunk: the schema block (src/app.py lines 110-118), with
the doubled braces of the f-string rendered as single braces. -/
def promptChunk5 : List Char :=
  chars (".\n    Schema: \x7b\n      \"style\": str,\n      \"lights\": [\x7b\n        \"id\": str, \"x\": float, \"y\": float, \"z\": float, \"color\": str, \"strength\": int, \n        \"aiming\": \"detailed instruction\", \"logic\": \"why this works\"\n      \x7d],\n      \"reflectors\": [\x7b \"id\": \"Whiteboard\", \"x\": float, \"y\": float \x7d]\n    \x7d\n    ")

/-- Model of the prompt f-string of `get_lighting_plan` (src/app.py lines
107-118).  The numeric interpolations `w`, `d`, `h`, `w/2`, `d*0.6` are taken
as already-rendered strings (Python float formatting is outside this model);
the gear and style strings are spliced verbatim.  The literal text is
transcribed exactly, including the indentation and trailing spaces of the
triple-quoted source literal. -/
def buildPrompt (wS dS hS sxS syS gearS styleS : List Char) : List Char :=
  promptChunk1 ++ wS ++ chars ("x") ++ dS ++ chars ("x") ++ hS ++ promptChunk2 ++
  sxS ++ chars (", ") ++ syS ++ promptChunk3 ++ gearS ++ promptChunk4 ++ styleS ++
  promptChunk5

/-- The default gear text of the sidebar (src/app.py line 24). -/
def defaultGear : List Char := chars ("100W COB light, 20W Stick light, 80cm Whiteboard")

/-- The prompt built for the default inputs of the app: room 3.5 x 3.0 x 2.8,
default gear, the "High-Contrast Noir" style; `1.75` and
`1.7999999999999998` are Python's renderings of `3.5/2` and `3.0*0.6`. -/
def promptDefault : List Char :=
  buildPrompt (chars ("3.5")) (chars ("3.0")) (chars ("2.8")) (chars ("1.75"))
    (chars ("1.7999999999999998")) defaultGear (chars ("High-Contrast Noir"))

/-- Substring occurrence test: does `p` occur contiguously in `s`? -/
def occurs (p : List Char) : List Char → Bool
  | [] => frontMatches p []
  | c :: t => frontMatches p (c :: t) || occurs p t

/-- Brace balance check used to state the spec's "no unbalanced braces"
side condition: scan left to right keeping the nesting depth, failing on a
close below depth zero, succeeding when the final depth is zero. -/
def braceDepth (s : List Char) : Option Nat :=
  s.foldl
    (fun acc c =>
      match acc with
      | none => none
      | some d =>
        if c = lbrace then some (d + 1)
        else if c = rbrace then (match d with | 0 => none | e + 1 => some e)
        else some d)
    (some 0)

/-- A text has no unbalanced braces when its brace-depth scan ends at
depth zero. -/
def braceBalanced (s : List Char) : Bool := braceDepth s = some 0

/-- First-wins minimum of a list by a key function, exactly the semantics of
Python's `min(iterable, key=...)`: the running best is replaced only when a
strictly smaller key appears. -/
def minBy {α β : Type} [LinearOrder β] (f : α → β) : α → List α → α
  | a, [] => a
  | a, b :: t => if f b < f a then minBy f b t else minBy f a t

/-- The clock dictionary of `get_clock_pos` (src/app.py line 37), in Python
dict insertion order, minus its head entry. -/
noncomputable def clocksTail : List (ℝ × ℕ) :=
  [(60, 1), (30, 2), (0, 3), (330, 4), (300, 5), (270, 6), (240, 7),
   (210, 8), (180, 9), (150, 10), (120, 11)]

/-- The full clock dictionary `\x7b90:12, 60:1, ..., 120:11\x7d` as an ordered
list of (reference angle in degrees, o'clock value) pairs. -/
noncomputable def clocks : List (ℝ × ℕ) := (90, 12) :: clocksTail

/-- Python float modulo `a % b` for positive `b`: the representative of `a`
in `[0, b)`. -/
noncomputable def pyFMod (a b : ℝ) : ℝ := a - b * Int.floor (a / b)

/-- The angle computed by `get_clock_pos` (src/app.py line 36):
`np.degrees(np.arctan2(dy, dx)) % 360`, with `arctan2 dy dx` modelled by the
complex argument of `dx + dy*i`. -/
noncomputable def angleDeg (lx ly sx sy : ℝ) : ℝ :=
  pyFMod (Complex.arg ⟨lx - sx, ly - sy⟩ * (180 / Real.pi)) 360

/-- Model of `get_clock_pos` (src/app.py lines 34-39): the clock value of the
dictionary key minimizing the absolute difference to the angle, ties resolved
to the earliest key in insertion order exactly as Python's `min` does. -/
noncomputable def get_clock_pos (lx ly sx sy : ℝ) : ℕ :=
  (minBy (fun p : ℝ × ℕ => |p.1 - angleDeg lx ly sx sy|) (90, 12) clocksTail).2

/-- The single light entry of the §8 concrete scenario reply: required
fields only. -/
def noirLight : Json :=
  Json.obj [(chars ("id"), Json.str (chars ("Key"))),
            (chars ("x"), Json.num 1), (chars ("y"), Json.num 1)]

/-- The same light entry with a `z` field added. -/
def noirLightZ : Json :=
  Json.obj [(chars ("id"), Json.str (chars ("Key"))),
            (chars ("x"), Json.num 1), (chars ("y"), Json.num 1),
            (chars ("z"), Json.num 2)]

/-- Direct deserialization of the §8 concrete scenario JSON. -/
def noirJson : Json :=
  Json.obj [(chars ("style"), Json.str (chars ("Noir"))),
            (chars ("lights"), Json.arr [noirLight])]

/-- The §8 concrete scenario reply text, wrapped in code-fence markers. -/
def noirReply : List Char :=
  chars ("```json\n\x7b\"style\":\"Noir\",\"lights\":[\x7b\"id\":\"Key\",\"x\":1,\"y\":1\x7d]\x7d\n```")

/-- The §8 concrete scenario reply with surrounding prose. -/
def thinkReply : List Char :=
  chars ("I think this works: \x7b\"lights\":[]\x7d Hope it helps!")

/-- The plan value `\x7b"lights": []\x7d`. -/
def vLights : Json := Json.obj [(chars ("lights"), Json.arr [])]

/-- The JSON object text `\x7b"lights":[]\x7d` as a decomposed char list. -/
def midLights : List Char := chars ("\"lights\":[]")

/-- The §8 refusal reply: prose with no braces. -/
def refusalReply : List Char := chars ("Sorry, I cannot help with that.")

/-- A reply whose extracted brace span is not valid JSON. -/
def truncReply : List Char := chars ("\x7b\"lights\": [\x7d")

/-- A balanced-braces prose block used ahead of a JSON object text. -/
def cexPre : List Char := chars ("\x7b\x7d ")

/-- A light entry missing the required `x` field. -/
def badLight : Json :=
  Json.obj [(chars ("id"), Json.str (chars ("K"))), (chars ("y"), Json.num 2)]

/-- A plan whose only light entry is missing the required `x` field. -/
def badJson : Json := Json.obj [(chars ("lights"), Json.arr [badLight])]

/-- Reply text deserializing to `badJson`. -/
def badReply : List Char :=
  chars ("\x7b\"lights\":[\x7b\"id\":\"K\",\"y\":2\x7d]\x7d")

/-- A reply that is exactly one JSON object with every schema field present. -/
def fullReply : List Char :=
  chars ("\x7b\"style\":\"Noir\",\"lights\":[\x7b\"id\":\"Key\",\"x\":1,\"y\":1,\"z\":2,\"color\":\"red\",\"strength\":80,\"aiming\":\"front\",\"logic\":\"fill\"\x7d],\"reflectors\":[\x7b\"id\":\"Whiteboard\",\"x\":3,\"y\":1\x7d]\x7d")

/-- Direct deserialization of `fullReply`. -/
def fullJson : Json :=
  Json.obj [(chars ("style"), Json.str (chars ("Noir"))),
            (chars ("lights"), Json.arr
              [Json.obj [(chars ("id"), Json.str (chars ("Key"))),
                         (chars ("x"), Json.num 1), (chars ("y"), Json.num 1),
                         (chars ("z"), Json.num 2),
                         (chars ("color"), Json.str (chars ("red"))),
                         (chars ("strength"), Json.num 80),
                         (chars ("aiming"), Json.str (chars ("front"))),
                         (chars ("logic"), Json.str (chars ("fill")))]]),
            (chars ("reflectors"), Json.arr
              [Json.obj [(chars ("id"), Json.str (chars ("Whiteboard"))),
                         (chars ("x"), Json.num 3), (chars ("y"), Json.num 1)]])]

/-- A reply containing two sibling top-level objects with trailing text. -/
def spanText : List Char :=
  chars ("x \x7b\"a\":\x7b\x7d\x7d y \x7b\"b\":1\x7d z")

/-- The part of `spanText` before its first opening brace. -/
def spanA : List Char := chars ("x ")

/-- The part of `spanText` strictly between its first opening brace and its
last closing brace. -/
def spanM : List Char := chars ("\"a\":\x7b\x7d\x7d y \x7b\"b\":1")

/-- The part of `spanText` after its last closing brace. -/
def spanB : List Char := chars (" z")

/-- Code-fence opener used ahead of a JSON object text. -/
def fencePre : List Char := chars ("```json\n")

/-- Code-fence closer used after a JSON object text. -/
def fenceSuf : List Char := chars ("\n```")

/-- A model instance of `matplotlib.colors.is_color_like` that recognizes the
color name "red" case-insensitively, as matplotlib does. -/
def isRedLike : List Char → Bool := fun s => decide (lowerChars s = chars ("red"))

/-- A model instance of `matplotlib.colors.is_color_like` recognizing exactly
the names "orange" and "gold". -/
def witCL : List Char → Bool :=
  fun s => decide (s = chars ("orange")) || decide (s = chars ("gold"))

theorem mbind_ok {β γ : Type} (v : β) (f : β → Except PyExn γ) :
    (Except.ok v >>= f) = f v := rfl

theorem mbind_err {β γ : Type} (e : PyExn) (f : β → Except PyExn γ) :
    ((Except.error e : Except PyExn β) >>= f) = Except.error e := rfl

theorem dropWhile_append_all {p : Char → Bool} :
    ∀ (a x : List Char), (∀ c ∈ a, p c = true) →
      (a ++ x).dropWhile p = x.dropWhile p := by
  intro a
  induction a with
  | nil => intro x _; rfl
  | cons c t ih =>
    intro x h
    have hc : p c = true := h c (by simp)
    rw [List.cons_append, List.dropWhile_cons, if_pos hc]
    exact ih x (fun d hd => h d (by simp [hd]))

theorem takeWhile_append_stop {p : Char → Bool} :
    ∀ (a : List Char) (c : Char) (x : List Char),
      (∀ d ∈ a, p d = true) → p c = false →
      (a ++ c :: x).takeWhile p = a := by
  intro a
  induction a with
  | nil => intro c x _ hc; simp [List.takeWhile, hc]
  | cons d t ih =>
    intro c x h hc
    have hd : p d = true := h d (by simp)
    rw [List.cons_append, List.takeWhile_cons, if_pos hd]
    rw [ih c x (fun e he => h e (by simp [he])) hc]

theorem splitAtLast_spec (m b : List Char) (hb : rbrace ∉ b) :
    splitAtLast (m ++ rbrace :: b) = some (m, b) := by
  have hrev : (m ++ rbrace :: b).reverse = b.reverse ++ rbrace :: m.reverse := by
    simp
  have hall : ∀ d ∈ b.reverse, notClose d = true := by
    intro d hd
    have hmem : d ∈ b := List.mem_reverse.mp hd
    have hne : d ≠ rbrace := fun h => hb (h ▸ hmem)
    simp [notClose, hne]
  have htw : ((m ++ rbrace :: b).reverse).takeWhile notClose = b.reverse := by
    rw [hrev]
    exact takeWhile_append_stop b.reverse rbrace m.reverse hall (by simp [notClose])
  rw [splitAtLast, htw, hrev, List.drop_left]
  simp

theorem reSearch_decomp (a m b : List Char) (ha : lbrace ∉ a) (hb : rbrace ∉ b) :
    reSearch (a ++ (lbrace :: (m ++ (rbrace :: b)))) = some (lbrace :: (m ++ [rbrace])) := by
  have hall : ∀ c ∈ a, notOpen c = true := by
    intro c hc
    have hne : c ≠ lbrace := fun h => ha (h ▸ hc)
    simp [notOpen, hne]
  have h1 : (a ++ (lbrace :: (m ++ (rbrace :: b)))).dropWhile notOpen
      = lbrace :: (m ++ (rbrace :: b)) := by
    rw [dropWhile_append_all a _ hall, List.dropWhile_cons, if_neg (by simp [notOpen])]
  rw [reSearch, h1]
  simp only [splitAtLast_spec m b hb]

theorem getLast?_some_decomp (l : List Char) (a : Char) (h : l.getLast? = some a) :
    ∃ t, l = t ++ [a] := by
  induction l generalizing a with
  | nil => cases h
  | cons c t ih =>
    cases t with
    | nil =>
      have : c = a := by simpa [List.getLast?] using h
      exact ⟨[], by simp [this]⟩
    | cons d u =>
      rw [List.getLast?_cons_cons] at h
      obtain ⟨t', ht⟩ := ih a h
      exact ⟨c :: t', by simp [ht]⟩

theorem mapE_ok_mem {β : Type} {f : Json → Except PyExn β} :
    ∀ {xs : List Json} {ys : List β}, mapE f xs = Except.ok ys →
      ∀ x ∈ xs, ∃ y, f x = Except.ok y := by
  intro xs
  induction xs with
  | nil => intro ys _ x hx; cases hx
  | cons a t ih =>
    intro ys h x hx
    rw [mapE] at h
    cases hfa : f a with
    | error e => rw [hfa, mbind_err] at h; cases h
    | ok y =>
      rw [hfa, mbind_ok] at h
      cases hmt : mapE f t with
      | error e => rw [hmt, mbind_err] at h; cases h
      | ok ys' =>
        rcases List.mem_cons.mp hx with rfl | hx'
        · exact ⟨y, hfa⟩
        · exact ih hmt x hx'

theorem pyItem_ok_lookup {l : Json} {k : List Char} {v : Json}
    (h : pyItem l k = Except.ok v) : Json.lookup l k = some v := by
  cases l with
  | obj fs =>
    rw [pyItem] at h
    cases hf : lookupField fs k with
    | none => rw [hf] at h; cases h
    | some w =>
      rw [hf] at h
      cases h
      simp [Json.lookup, hf]
  | null => cases h
  | bool b => cases h
  | num q => cases h
  | str s => cases h
  | arr xs => cases h

theorem draw2dLight_ok_lookups {isCL : List Char → Bool} {l : Json} {r : Light2D}
    (h : draw2dLight isCL l = Except.ok r) :
    (Json.lookup l (chars ("x"))).isSome ∧ (Json.lookup l (chars ("y"))).isSome ∧
      (Json.lookup l (chars ("id"))).isSome := by
  rw [draw2dLight] at h
  cases h0 : pyGet l (chars ("color")) (Json.str (chars ("gold"))) with
  | error e => rw [h0, mbind_err] at h; cases h
  | ok colJ =>
    rw [h0, mbind_ok] at h
    cases h1 : pyItem l (chars ("x")) with
    | error e => rw [h1, mbind_err] at h; cases h
    | ok xJ =>
      rw [h1, mbind_ok] at h
      cases h2 : pyItem l (chars ("y")) with
      | error e => rw [h2, mbind_err] at h; cases h
      | ok yJ =>
        rw [h2, mbind_ok] at h
        cases h3 : asNum xJ with
        | error e => rw [h3, mbind_err] at h; cases h
        | ok qx =>
          rw [h3, mbind_ok] at h
          cases h4 : asNum yJ with
          | error e => rw [h4, mbind_err] at h; cases h
          | ok qy =>
            rw [h4, mbind_ok] at h
            cases h5 : pyItem l (chars ("id")) with
            | error e => rw [h5, mbind_err] at h; cases h
            | ok idJ =>
              refine ⟨?_, ?_, ?_⟩
              · rw [pyItem_ok_lookup h1]; rfl
              · rw [pyItem_ok_lookup h2]; rfl
              · rw [pyItem_ok_lookup h5]; rfl

theorem get_safe_color_eq (isCL : List Char → Bool) (v : Json) :
    get_safe_color isCL v =
      if isCL ((aliasLookup (trimChars (lowerChars (pyStr v)))).getD
               (trimChars (lowerChars (pyStr v))))
      then (aliasLookup (trimChars (lowerChars (pyStr v)))).getD
             (trimChars (lowerChars (pyStr v)))
      else chars ("gold") := rfl

theorem get_safe_color_gold (isCL : List Char → Bool) :
    get_safe_color isCL (Json.str (chars ("gold"))) = chars ("gold") := by
  have h : get_safe_color isCL (Json.str (chars ("gold")))
      = if isCL (chars ("gold")) then chars ("gold") else chars ("gold") := rfl
  rw [h, ite_self]

theorem pyStr_str (s : List Char) : pyStr (Json.str s) = s := rfl

theorem frontMatches_self_app : ∀ (p b : List Char), frontMatches p (p ++ b) = true := by
  intro p
  induction p with
  | nil => intro b; rfl
  | cons c t ih => intro b; simp [frontMatches, ih b]

theorem occurs_of_front {p s : List Char} (h : frontMatches p s = true) :
    occurs p s = true := by
  cases s with
  | nil => simpa [occurs] using h
  | cons c t => simp [occurs, h]

theorem occurs_app_left {p : List Char} :
    ∀ (a s : List Char), occurs p s = true → occurs p (a ++ s) = true := by
  intro a
  induction a with
  | nil => intro s h; simpa using h
  | cons c t ih => intro s h; simp [occurs, ih s h]

theorem occurs_of_parts {p : List Char} (a b s : List Char) (h : s = a ++ (p ++ b)) :
    occurs p s = true := by
  subst h
  exact occurs_app_left a _ (occurs_of_front (frontMatches_self_app p b))

theorem minBy_mem {α β : Type} [LinearOrder β] (f : α → β) :
    ∀ (a : α) (l : List α), minBy f a l ∈ a :: l := by
  intro a l
  induction l generalizing a with
  | nil => simp [minBy]
  | cons b t ih =>
    rw [minBy]
    by_cases h : f b < f a
    · rw [if_pos h]
      exact List.mem_cons_of_mem a (ih b)
    · rw [if_neg h]
      rcases List.mem_cons.mp (ih a) with h1 | h1
      · rw [h1]; exact List.mem_cons_self a (b :: t)
      · exact List.mem_cons_of_mem a (List.mem_cons_of_mem b h1)

theorem minBy_le {α β : Type} [LinearOrder β] (f : α → β) :
    ∀ (a : α) (l : List α) (x : α), x ∈ a :: l → f (minBy f a l) ≤ f x := by
  intro a l
  induction l generalizing a with
  | nil =>
    intro x hx
    have hxa : x = a := by simpa using hx
    subst hxa
    simp [minBy]
  | cons b t ih =>
    intro x hx
    rw [minBy]
    by_cases h : f b < f a
    · rw [if_pos h]
      rcases List.mem_cons.mp hx with h1 | h1
      · rw [h1]
        exact le_trans (ih b b (List.mem_cons_self b t)) (le_of_lt h)
      · exact ih b x h1
    · rw [if_neg h]
      rcases List.mem_cons.mp hx with h1 | h1
      · rw [h1]
        exact ih a a (List.mem_cons_self a t)
      · rcases List.mem_cons.mp h1 with h2 | h2
        · rw [h2]
          exact le_trans (ih a a (List.mem_cons_self a t)) (not_lt.mp h)
        · exact ih a x (List.mem_cons_of_mem a h2)

/-- C1: for a reply that is exactly one well-formed JSON object (first char
the opening brace, last char the closing brace, the whole text parsing), the
resolver returns exactly the direct JSON deserialization of that text — the
extracted candidate is the full text, and the parsed value is returned
verbatim, so style, lights order and reflectors are exactly those of the
deserialization. -/
theorem claim_C1 (s : List Char) (v : Json)
    (h1 : s.head? = some lbrace) (h2 : s.getLast? = some rbrace)
    (h3 : Json.parse s = some v) :
    get_lighting_plan s = Except.ok v := by
  cases s with
  | nil => cases h1
  | cons c t =>
    have hc : c = lbrace := by simpa using h1
    subst hc
    cases t with
    | nil =>
      have hcontra : lbrace = rbrace := by simpa [List.getLast?] using h2
      exact absurd hcontra (by decide)
    | cons d u =>
      have h2' : (d :: u).getLast? = some rbrace := by
        rwa [List.getLast?_cons_cons] at h2
      obtain ⟨mid, hmid⟩ := getLast?_some_decomp (d :: u) rbrace h2'
      have hs : lbrace :: d :: u = [] ++ (lbrace :: (mid ++ (rbrace :: []))) := by
        simp [hmid]
      have hback : lbrace :: (mid ++ [rbrace]) = lbrace :: d :: u := by
        simp [hmid]
      have hr : reSearch (lbrace :: d :: u) = some (lbrace :: (mid ++ [rbrace])) := by
        rw [hs]
        exact reSearch_decomp [] mid [] (by simp) (by simp)
      simp only [get_lighting_plan, hr, jsonLoadsE, hback, h3]

/-- Witness for C1 at a reply carrying every schema field. -/
theorem wit_C1 :
    fullReply.head? = some lbrace ∧ fullReply.getLast? = some rbrace ∧
    Json.parse fullReply = some fullJson ∧
    get_lighting_plan fullReply = Except.ok fullJson :=
  ⟨rfl, rfl, by with_unfolding_all rfl,
   claim_C1 fullReply fullJson rfl rfl (by with_unfolding_all rfl)⟩

/-- C4: for any reply text decomposed around its first opening brace (nothing
before it contains an opening brace) and its last closing brace (nothing
after it contains a closing brace), the regex extraction selects exactly the
span from that first opening brace through that last closing brace — the
greedy outermost span — and the resolver hands exactly that candidate to
`json.loads`. -/
theorem claim_C4 (s a m b : List Char)
    (hs : s = a ++ (lbrace :: (m ++ (rbrace :: b))))
    (ha : lbrace ∉ a) (hb : rbrace ∉ b) :
    reSearch s = some (lbrace :: (m ++ [rbrace]))
    ∧ get_lighting_plan s = jsonLoadsE (lbrace :: (m ++ [rbrace])) := by
  subst hs
  have hr := reSearch_decomp a m b ha hb
  exact ⟨hr, by simp only [get_lighting_plan, hr]⟩

/-- Witness for C4 at a reply holding two sibling objects: the selected span
runs from the first opening brace to the very last closing brace, covering
both objects — not the first balanced pair. -/
theorem wit_C4 :
    spanText = spanA ++ (lbrace :: (spanM ++ (rbrace :: spanB)))
    ∧ (lbrace ∉ spanA) ∧ (rbrace ∉ spanB)
    ∧ reSearch spanText = some (lbrace :: (spanM ++ [rbrace]))
    ∧ get_lighting_plan spanText = jsonLoadsE (lbrace :: (spanM ++ [rbrace])) := by
  have h := claim_C4 spanText spanA spanM spanB rfl (by decide) (by decide)
  exact ⟨rfl, by decide, by decide, h.1, h.2⟩

/-- C5 (amended): for a prefix containing no opening brace and a suffix
containing no closing brace — in particular code-fence markers — extraction
of `pre ++ jsonText ++ suf` returns `jsonText` itself, and the resolver
yields the same plan as for the bare JSON text. -/
theorem claim_C5 (pre mid suf : List Char) (v : Json)
    (hpre : lbrace ∉ pre) (hsuf : rbrace ∉ suf)
    (hparse : Json.parse (lbrace :: (mid ++ [rbrace])) = some v) :
    reSearch (pre ++ ((lbrace :: (mid ++ [rbrace])) ++ suf))
      = some (lbrace :: (mid ++ [rbrace]))
    ∧ get_lighting_plan (pre ++ ((lbrace :: (mid ++ [rbrace])) ++ suf)) = Except.ok v
    ∧ get_lighting_plan (lbrace :: (mid ++ [rbrace])) = Except.ok v := by
  have hshape : pre ++ ((lbrace :: (mid ++ [rbrace])) ++ suf)
      = pre ++ (lbrace :: (mid ++ (rbrace :: suf))) := by simp
  have hr : reSearch (pre ++ ((lbrace :: (mid ++ [rbrace])) ++ suf))
      = some (lbrace :: (mid ++ [rbrace])) := by
    rw [hshape]
    exact reSearch_decomp pre mid suf hpre hsuf
  have hr2 : reSearch (lbrace :: (mid ++ [rbrace]))
      = some (lbrace :: (mid ++ [rbrace])) := by
    have h := reSearch_decomp [] mid [] (by simp) (by simp)
    simpa using h
  refine ⟨hr, ?_, ?_⟩
  · simp only [get_lighting_plan, hr, jsonLoadsE, hparse]
  · simp only [get_lighting_plan, hr2, jsonLoadsE, hparse]

/-- Counterexample for C5 as stated: a prefix with balanced braces (so "no
unbalanced braces" holds) already breaks extraction — the greedy span starts
at the prefix's opening brace, the extracted candidate is not the JSON text,
and the resolver errors where it succeeds on the bare JSON text. -/
theorem cex_C5 :
    braceBalanced cexPre = true
    ∧ Json.parse (lbrace :: (midLights ++ [rbrace])) = some vLights
    ∧ reSearch (cexPre ++ (lbrace :: (midLights ++ [rbrace])))
        ≠ some (lbrace :: (midLights ++ [rbrace]))
    ∧ get_lighting_plan (cexPre ++ (lbrace :: (midLights ++ [rbrace])))
        = Except.error PyExn.jsonDecodeError
    ∧ get_lighting_plan (lbrace :: (midLights ++ [rbrace])) = Except.ok vLights :=
  ⟨rfl, rfl, by decide, rfl, rfl⟩

/-- Witness for C5 at the code-fence scenario of §8. -/
theorem wit_C5 :
    (lbrace ∉ fencePre) ∧ (rbrace ∉ fenceSuf)
    ∧ Json.parse (lbrace :: (midLights ++ [rbrace])) = some vLights
    ∧ reSearch (fencePre ++ ((lbrace :: (midLights ++ [rbrace])) ++ fenceSuf))
        = some (lbrace :: (midLights ++ [rbrace]))
    ∧ get_lighting_plan (fencePre ++ ((lbrace :: (midLights ++ [rbrace])) ++ fenceSuf))
        = Except.ok vLights := by
  have h := claim_C5 fencePre midLights fenceSuf vLights (by decide) (by decide) rfl
  exact ⟨by decide, by decide, rfl, h.1, h.2.1⟩

/-- C7: a syntactically invalid reply fails inside `get_lighting_plan` with
one of two distinguishable exception classes — `AttributeError` when no
brace span exists (the extraction failure) and `JSONDecodeError` when the
span is not valid JSON (the parse failure) — and the `except Exception`
boundary of the button handler catches it and surfaces an error message.
`handleGenerate` is a total function, so every reply yields an outcome and
the process stays usable. -/
theorem claim_C7 (isCL : List Char → Bool) (reply : List Char) :
    (reSearch reply = none →
      get_lighting_plan reply = Except.error PyExn.attributeError
      ∧ handleGenerate isCL reply = UIOutcome.errorShown PyExn.attributeError)
    ∧ (∀ c, reSearch reply = some c → Json.parse c = none →
      get_lighting_plan reply = Except.error PyExn.jsonDecodeError
      ∧ handleGenerate isCL reply = UIOutcome.errorShown PyExn.jsonDecodeError) := by
  constructor
  · intro h
    have hg : get_lighting_plan reply = Except.error PyExn.attributeError := by
      simp only [get_lighting_plan, h]
    refine ⟨hg, ?_⟩
    simp only [handleGenerate, runRequest, hg, mbind_err]
  · intro c hc hp
    have hg : get_lighting_plan reply = Except.error PyExn.jsonDecodeError := by
      simp only [get_lighting_plan, hc, jsonLoadsE, hp]
    refine ⟨hg, ?_⟩
    simp only [handleGenerate, runRequest, hg, mbind_err]

/-- Witness for C7 at the §8 refusal reply (no braces, extraction failure)
and at a braced but non-JSON reply (parse failure). -/
theorem wit_C7 :
    reSearch refusalReply = none
    ∧ handleGenerate (fun _ => true) refusalReply
        = UIOutcome.errorShown PyExn.attributeError
    ∧ handleGenerate (fun _ => true) truncReply
        = UIOutcome.errorShown PyExn.jsonDecodeError :=
  ⟨rfl, ((claim_C7 (fun _ => true) refusalReply).1 rfl).2,
   ((claim_C7 (fun _ => true) truncReply).2 truncReply rfl rfl).2⟩

/-- Counterexample for C2 as stated: on the §8 concrete reply the resolver
returns the parsed JSON verbatim — its single light entry has no `z`, no
`strength` and no `color` field at all, so no default (in particular not
`z = 1.5`) was substituted by the resolver, whatever the default tokens. -/
theorem cex_C2 :
    get_lighting_plan noirReply = Except.ok noirJson
    ∧ Json.lookup noirJson (chars ("lights")) = some (Json.arr [noirLight])
    ∧ Json.lookup noirLight (chars ("z")) = none
    ∧ Json.lookup noirLight (chars ("strength")) = none
    ∧ Json.lookup noirLight (chars ("color")) = none :=
  ⟨by with_unfolding_all rfl, rfl, rfl, rfl, rfl⟩

/-- C2 (amended): the resolver substitutes nothing; defaults live at the
point of use.  For a light entry with `id`, `x`, `y` present and the optional
fields absent: the 2D renderer substitutes the color default `'gold'`
in-line; when `z` is also absent, the 3D renderer (and the cheatsheet) raise
`KeyError('z')` — `z` has no default anywhere; when `z` is present, the
cheatsheet substitutes strength `50`, `'Aim at subject.'` and
`'Separates subject from background.'` in-line. -/
theorem claim_C2 (isCL : List Char → Bool) (l : Json) (idv : Json) (qx qy : ℚ)
    (hid : Json.lookup l (chars ("id")) = some idv)
    (hx : Json.lookup l (chars ("x")) = some (Json.num qx))
    (hy : Json.lookup l (chars ("y")) = some (Json.num qy))
    (hcol : Json.lookup l (chars ("color")) = none)
    (hst : Json.lookup l (chars ("strength")) = none)
    (haim : Json.lookup l (chars ("aiming")) = none)
    (hlog : Json.lookup l (chars ("logic")) = none) :
    draw2dLight isCL l = Except.ok ⟨chars ("gold"), qx, qy, pyStr idv⟩
    ∧ (Json.lookup l (chars ("z")) = none →
        draw3dLight isCL l = Except.error (PyExn.keyError (chars ("z")))
        ∧ cheatLight l = Except.error (PyExn.keyError (chars ("z"))))
    ∧ (∀ qz : ℚ, Json.lookup l (chars ("z")) = some (Json.num qz) →
        draw3dLight isCL l = Except.ok ⟨qx, qy, qz, chars ("gold"), pyStr idv⟩
        ∧ cheatLight l = Except.ok ⟨pyStr idv, chars ("50"), qz,
            chars ("Aim at subject."), chars ("Separates subject from background.")⟩) := by
  cases l with
  | obj fs =>
    simp only [Json.lookup] at hid hx hy hcol hst haim hlog
    refine ⟨?_, ?_, ?_⟩
    · simp only [draw2dLight, pyGet, pyItem, asNum, hid, hx, hy, hcol,
        mbind_ok, mbind_err, Option.getD, get_safe_color_gold]
    · intro hz
      simp only [Json.lookup] at hz
      constructor
      · simp only [draw3dLight, pyGet, pyItem, asNum, hid, hx, hy, hz,
          mbind_ok, mbind_err]
      · simp only [cheatLight, pyGet, pyItem, asNum, hid, hx, hy, hz,
          mbind_ok, mbind_err]
    · intro qz hz
      simp only [Json.lookup] at hz
      constructor
      · simp only [draw3dLight, pyGet, pyItem, asNum, hid, hx, hy, hz, hcol,
          mbind_ok, mbind_err, Option.getD, get_safe_color_gold]
      · have hfifty : pyStr (Json.num 50) = chars ("50") := by with_unfolding_all rfl
        simp only [cheatLight, pyGet, pyItem, asNum, hid, hx, hy, hz, hst, haim, hlog,
          mbind_ok, mbind_err, Option.getD, hfifty, pyStr_str]
  | null => cases hid
  | bool b => cases hid
  | num q => cases hid
  | str s => cases hid
  | arr xs => cases hid

/-- Witness for C2 at the §8 light entry (and the same entry with `z` to
exercise the cheatsheet defaults). -/
theorem wit_C2 :
    Json.lookup noirLight (chars ("z")) = none
    ∧ draw2dLight (fun _ => true) noirLight
        = Except.ok ⟨chars ("gold"), 1, 1, chars ("Key")⟩
    ∧ draw3dLight (fun _ => true) noirLight
        = Except.error (PyExn.keyError (chars ("z")))
    ∧ cheatLight noirLightZ
        = Except.ok ⟨chars ("Key"), chars ("50"), 2, chars ("Aim at subject."),
            chars ("Separates subject from background.")⟩ := by
  have h1 := claim_C2 (fun _ => true) noirLight (Json.str (chars ("Key"))) 1 1
    rfl rfl rfl rfl rfl rfl rfl
  have h2 := claim_C2 (fun _ => true) noirLightZ (Json.str (chars ("Key"))) 1 1
    rfl rfl rfl rfl rfl rfl rfl
  exact ⟨rfl, h1.1, (h1.2.1 rfl).1, (h2.2.2 2 rfl).2⟩

/-- Counterexample for C3 as stated: on the §8 prose-wrapped reply the
resolver returns `\x7b"lights": []\x7d` verbatim; the plan's `style` lookup is
`none`, not the originally requested style tag (no fallback exists in the
code, and no downstream consumer ever reads `style`). -/
theorem cex_C3 :
    get_lighting_plan thinkReply = Except.ok vLights
    ∧ Json.lookup vLights (chars ("style")) = none :=
  ⟨rfl, rfl⟩

/-- C3 (amended): a missing `style` key stays missing (nothing inserts the
requested tag, and `style` is never read downstream); a missing `lights` key
is treated as the empty sequence at every consumer through
`plan.get('lights', [])`, without error; `reflectors` is never read by any
consumer.  On the §8 prose-wrapped reply the request renders with zero
fixtures and a style-less plan. -/
theorem claim_C3 (isCL : List Char → Bool) :
    (∀ fs : List (List Char × Json), lookupField fs (chars ("lights")) = none →
      draw_2d isCL (Json.obj fs) = Except.ok []
      ∧ draw_3d isCL (Json.obj fs) = Except.ok []
      ∧ cheatsheet (Json.obj fs) = Except.ok [])
    ∧ runRequest isCL thinkReply = Except.ok ⟨vLights, [], [], []⟩
    ∧ Json.lookup vLights (chars ("style")) = none := by
  refine ⟨?_, rfl, rfl⟩
  intro fs h
  refine ⟨?_, ?_, ?_⟩ <;>
    simp only [draw_2d, draw_3d, cheatsheet, pyGet, h, Option.getD, asIterable,
      mapE, mbind_ok]

/-- Witness for C3 at the empty plan object and the §8 prose-wrapped reply. -/
theorem wit_C3 :
    lookupField [] (chars ("lights")) = none
    ∧ draw_2d (fun _ => true) (Json.obj []) = Except.ok []
    ∧ runRequest (fun _ => true) thinkReply = Except.ok ⟨vLights, [], [], []⟩ :=
  ⟨rfl, ((claim_C3 (fun _ => true)).1 [] rfl).1, (claim_C3 (fun _ => true)).2.1⟩

/-- Counterexample for C6 as stated: on a reply whose single light entry
lacks the required `x`, the resolver happily returns the plan (there is no
NormalizationError anywhere in the code — `PyExn` enumerates every exception
the modelled paths can raise), with the malformed entry kept verbatim. -/
theorem cex_C6 :
    get_lighting_plan badReply = Except.ok badJson
    ∧ Json.lookup badJson (chars ("lights")) = some (Json.arr [badLight])
    ∧ Json.lookup badLight (chars ("x")) = none :=
  ⟨by with_unfolding_all rfl, rfl, rfl⟩

/-- C6 (amended): the resolver performs no per-entry validation and rejects
nothing; the malformed entry is also not silently dropped — instead any plan
whose lights contain an entry lacking `id`, `x` or `y` makes the whole
request fail (the first missing-key access raises, the handler shows an
error, nothing is rendered). -/
theorem claim_C6 (isCL : List Char → Bool) (reply : List Char) (plan l : Json)
    (xs : List Json)
    (hplan : get_lighting_plan reply = Except.ok plan)
    (hlights : Json.lookup plan (chars ("lights")) = some (Json.arr xs))
    (hmem : l ∈ xs)
    (hmiss : Json.lookup l (chars ("x")) = none ∨ Json.lookup l (chars ("y")) = none ∨
             Json.lookup l (chars ("id")) = none) :
    ∃ e, runRequest isCL reply = Except.error e := by
  cases hrr : runRequest isCL reply with
  | error e => exact ⟨e, rfl⟩
  | ok out =>
    exfalso
    rw [runRequest, hplan, mbind_ok] at hrr
    cases h2 : draw_2d isCL plan with
    | error e => rw [h2, mbind_err] at hrr; cases hrr
    | ok m2 =>
      cases plan with
      | obj fs =>
        simp only [Json.lookup] at hlights
        have hd2 : draw_2d isCL (Json.obj fs) = mapE (draw2dLight isCL) xs := by
          simp only [draw_2d, pyGet, hlights, Option.getD, asIterable, mbind_ok]
        rw [hd2] at h2
        obtain ⟨r, hr⟩ := mapE_ok_mem h2 l hmem
        obtain ⟨hxs, hys, hids⟩ := draw2dLight_ok_lookups hr
        rcases hmiss with hm | hm | hm
        · rw [hm] at hxs; cases hxs
        · rw [hm] at hys; cases hys
        · rw [hm] at hids; cases hids
      | null => cases hlights
      | bool b => cases hlights
      | num q => cases hlights
      | str s => cases hlights
      | arr ys => cases hlights

/-- Witness for C6 at the concrete malformed reply. -/
theorem wit_C6 :
    Json.lookup badLight (chars ("x")) = none
    ∧ (∃ e, runRequest (fun _ => true) badReply = Except.error e) :=
  ⟨rfl, claim_C6 (fun _ => true) badReply badJson badLight [badLight]
    (by with_unfolding_all rfl) rfl (List.mem_singleton.mpr rfl) (Or.inl rfl)⟩

/-- Counterexample for C8 as stated: the prompt built for the app's default
inputs contains no bounds-hint text at all — none of the phrasings such an
instruction would use ("within", "[0", "bound", "keep", "coordinates")
occurs in it.  The prompt states the room size but never instructs the model
to keep coordinates inside it. -/
theorem cex_C8 :
    occurs (chars ("within")) promptDefault = false
    ∧ occurs (chars ("[0")) promptDefault = false
    ∧ occurs (chars ("bound")) promptDefault = false
    ∧ occurs (chars ("keep")) promptDefault = false
    ∧ occurs (chars ("coordinates")) promptDefault = false :=
  ⟨rfl, rfl, rfl, rfl, rfl⟩

/-- C8 (amended): the prompt is a pure function of room dimensions, gear and
style — each rendered input occurs verbatim as a substring of the built
string — and it states the room size and subject position; but it contains
no numeric-bounds hint (no instruction to keep coordinates within
[0,width]x[0,depth]x[0,height]), checked at the default inputs. -/
theorem claim_C8 :
    (∀ wS dS hS sxS syS gearS styleS : List Char,
      occurs gearS (buildPrompt wS dS hS sxS syS gearS styleS) = true
      ∧ occurs styleS (buildPrompt wS dS hS sxS syS gearS styleS) = true
      ∧ occurs wS (buildPrompt wS dS hS sxS syS gearS styleS) = true
      ∧ occurs dS (buildPrompt wS dS hS sxS syS gearS styleS) = true
      ∧ occurs hS (buildPrompt wS dS hS sxS syS gearS styleS) = true)
    ∧ occurs (chars ("within")) promptDefault = false
    ∧ occurs (chars ("[0")) promptDefault = false
    ∧ occurs (chars ("bound")) promptDefault = false
    ∧ occurs (chars ("keep coordinates")) promptDefault = false := by
  refine ⟨?_, rfl, rfl, rfl, rfl⟩
  intro wS dS hS sxS syS gearS styleS
  refine ⟨?_, ?_, ?_, ?_, ?_⟩
  · exact occurs_of_parts
      (promptChunk1 ++ wS ++ chars ("x") ++ dS ++ chars ("x") ++ hS ++ promptChunk2 ++
        sxS ++ chars (", ") ++ syS ++ promptChunk3)
      (promptChunk4 ++ styleS ++ promptChunk5) _
      (by simp [buildPrompt, List.append_assoc])
  · exact occurs_of_parts
      (promptChunk1 ++ wS ++ chars ("x") ++ dS ++ chars ("x") ++ hS ++ promptChunk2 ++
        sxS ++ chars (", ") ++ syS ++ promptChunk3 ++ gearS ++ promptChunk4)
      promptChunk5 _
      (by simp [buildPrompt, List.append_assoc])
  · exact occurs_of_parts promptChunk1
      (chars ("x") ++ dS ++ chars ("x") ++ hS ++ promptChunk2 ++ sxS ++ chars (", ") ++
        syS ++ promptChunk3 ++ gearS ++ promptChunk4 ++ styleS ++ promptChunk5) _
      (by simp [buildPrompt, List.append_assoc])
  · exact occurs_of_parts (promptChunk1 ++ wS ++ chars ("x"))
      (chars ("x") ++ hS ++ promptChunk2 ++ sxS ++ chars (", ") ++ syS ++ promptChunk3 ++
        gearS ++ promptChunk4 ++ styleS ++ promptChunk5) _
      (by simp [buildPrompt, List.append_assoc])
  · exact occurs_of_parts (promptChunk1 ++ wS ++ chars ("x") ++ dS ++ chars ("x"))
      (promptChunk2 ++ sxS ++ chars (", ") ++ syS ++ promptChunk3 ++ gearS ++
        promptChunk4 ++ styleS ++ promptChunk5) _
      (by simp [buildPrompt, List.append_assoc])

/-- Counterexample for C9 as stated: with a model of `is_color_like` that,
like matplotlib, recognizes "RED" case-insensitively, the input "RED" is
recognized and is not an alias key, yet `get_safe_color` returns "red" —
the lowercased input — and not the input itself. -/
theorem cex_C9 :
    isRedLike (chars ("RED")) = true
    ∧ aliasLookup (trimChars (lowerChars (chars ("RED")))) = none
    ∧ get_safe_color isRedLike (Json.str (chars ("RED"))) = chars ("red")
    ∧ chars ("red") ≠ chars ("RED") :=
  ⟨rfl, rfl, rfl, by decide⟩

/-- C9 (amended): `get_safe_color` never raises and always yields a
renderer-usable color: whenever matplotlib accepts "gold", the returned
string is always accepted by matplotlib; the alias-mapped name is returned
when the lowercased, stripped rendering of the input is an alias key (and
the mapped name is accepted); the lowercased, stripped input itself — not
the raw input — is returned when it is not aliased and is accepted; and
"gold" is returned otherwise.  Unrecognized inputs are never rejected. -/
theorem claim_C9 (isCL : List Char → Bool) (v : Json) :
    (isCL (chars ("gold")) = true → isCL (get_safe_color isCL v) = true)
    ∧ (∀ al, aliasLookup (trimChars (lowerChars (pyStr v))) = some al →
        isCL al = true → get_safe_color isCL v = al)
    ∧ (aliasLookup (trimChars (lowerChars (pyStr v))) = none →
        isCL (trimChars (lowerChars (pyStr v))) = true →
        get_safe_color isCL v = trimChars (lowerChars (pyStr v)))
    ∧ (isCL ((aliasLookup (trimChars (lowerChars (pyStr v)))).getD
          (trimChars (lowerChars (pyStr v)))) = false →
        get_safe_color isCL v = chars ("gold")) := by
  refine ⟨?_, ?_, ?_, ?_⟩
  · intro hg
    rw [get_safe_color_eq]
    cases h : isCL ((aliasLookup (trimChars (lowerChars (pyStr v)))).getD
        (trimChars (lowerChars (pyStr v)))) with
    | false => simp [hg]
    | true => simp [h]
  · intro al hal hcl
    rw [get_safe_color_eq, hal]
    simp [Option.getD, hcl]
  · intro hnone hcl
    rw [get_safe_color_eq, hnone]
    simp [Option.getD, hcl]
  · intro hfalse
    rw [get_safe_color_eq, hfalse]
    simp

/-- Witness for C9 at the aliased input " Amber ". -/
theorem wit_C9 :
    aliasLookup (trimChars (lowerChars (pyStr (Json.str (chars (" Amber "))))))
      = some (chars ("orange"))
    ∧ witCL (chars ("orange")) = true
    ∧ get_safe_color witCL (Json.str (chars (" Amber "))) = chars ("orange") :=
  ⟨rfl, rfl, (claim_C9 witCL (Json.str (chars (" Amber ")))).2.1 (chars ("orange")) rfl rfl⟩

/-- C10: for any real light and subject coordinates, `get_clock_pos` returns
a value in 1..12, and that value is the clock reading of a dictionary entry
whose reference angle minimizes the absolute difference to the computed
light angle (degrees of arctan2, reduced to [0, 360)) over all twelve
entries — the nearest reference angle, ties resolved to the earliest entry
in dict insertion order exactly as Python's `min` resolves them. -/
theorem claim_C10 (lx ly sx sy : ℝ) :
    get_clock_pos lx ly sx sy ∈ Finset.Icc 1 12
    ∧ ∃ p, p ∈ clocks ∧ get_clock_pos lx ly sx sy = p.2
        ∧ ∀ q ∈ clocks,
            |p.1 - angleDeg lx ly sx sy| ≤ |q.1 - angleDeg lx ly sx sy| := by
  constructor
  · have hmem := minBy_mem (fun p : ℝ × ℕ => |p.1 - angleDeg lx ly sx sy|) (90, 12) clocksTail
    show (minBy (fun p : ℝ × ℕ => |p.1 - angleDeg lx ly sx sy|) (90, 12) clocksTail).2
        ∈ Finset.Icc 1 12
    simp only [clocksTail, List.mem_cons, List.not_mem_nil, or_false] at hmem
    simp only [clocksTail]
    rcases hmem with h|h|h|h|h|h|h|h|h|h|h|h <;> rw [h] <;> decide
  · refine ⟨minBy (fun p : ℝ × ℕ => |p.1 - angleDeg lx ly sx sy|) (90, 12) clocksTail,
      ?_, rfl, ?_⟩
    · exact minBy_mem (fun p : ℝ × ℕ => |p.1 - angleDeg lx ly sx sy|) (90, 12) clocksTail
    · intro q hq
      exact minBy_le (fun p : ℝ × ℕ => |p.1 - angleDeg lx ly sx sy|) (90, 12) clocksTail q hq

/-- Witness for C10 at the origin configuration. -/
theorem wit_C10 : get_clock_pos 0 0 0 0 ∈ Finset.Icc 1 12 :=
  (claim_C10 0 0 0 0).1

end AppModel
